import Mathlib

/-!
Verification of the pyraptor range-query planner against its design document.

The development shallowly embeds the three given source files:
  * pyraptor/gtfs/timetable.py   (GTFS ingestion: date filtering, timetable conversion, icd fare)
  * pyraptor/query_range_mcraptor.py  (the range-query driver)
  * src/testing.py               (output comparison tool)

Data-frame rows become Lean structures, pandas filters become List.filter,
Python dicts become association lists with explicit insert/update semantics,
Python's stable sort becomes Mathlib's insertionSort (which is stable in the
same sense), floats used as exact literals become rationals, and code whose
execution can raise becomes Option/Except valued.  Components that live in
files outside the given sources (pyraptor/model/structures.py and
pyraptor/model/mcraptor.py) are modelled from the design document and marked
as such in their doc comments.
-/

/-! ## Data model (pyraptor/model/structures.py is not among the sources;
entities are modelled from the spec, section 3, with the fields the given
sources use) -/

/-- Modelled from the spec: a Station is identified by a stable id and holds a
display name (section 3).  Constructed in `gtfs_to_pyraptor_timetable` as
`Station(s.stop_id, s.stop_name)`. -/
structure Station where
  id : String
  name : String
deriving DecidableEq

/-- Modelled from the spec: a Stop is identified by stop_id and belongs to
exactly one Station (section 3).  Constructed in `gtfs_to_pyraptor_timetable`
as `Stop(s.stop_id, s.stop_name, station)`. -/
structure Stop where
  id : String
  name : String
  station : Station
deriving DecidableEq

/-- Modelled from the spec: a Trip carries a headsign (`long_name`, set from
`trip_headsign` in the source) and a derived integer `hint` used by the
optional fare rule (section 3; the spec flags the provenance of `hint` as an
open question and the given sources never assign it). -/
structure Trip where
  long_name : String
  hint : Int
deriving DecidableEq

/-- TripStopTime, as constructed in `gtfs_to_pyraptor_timetable`:
`TripStopTime(trip, stopidx, stop, dts_arr, dts_dep, fare)`.  Times are
seconds since midnight; the fare is modelled as an exact rational. -/
structure TripStopTime where
  trip : Trip
  stopidx : Nat
  stop : Stop
  dts_arr : Nat
  dts_dep : Nat
  fare : ℚ
deriving DecidableEq

/-- Transfer, as constructed in `gtfs_to_pyraptor_timetable`:
`Transfer(from_stop=stop_i, to_stop=stop_j, layovertime=TRANSFER_COST)`. -/
structure Transfer where
  from_stop : Stop
  to_stop : Stop
  layovertime : Nat
deriving DecidableEq

/-- The timetable assembled at the end of `gtfs_to_pyraptor_timetable`.
Routes (built by the missing Routes container) are not modelled: no claim
mentions them. -/
structure Timetable where
  stations : List Station
  stops : List Stop
  trips : List Trip
  trip_stop_times : List TripStopTime
  transfers : List Transfer

/-! ## GTFS rows (the pandas data frames of pyraptor/gtfs/timetable.py,
restricted to the columns the source selects) -/

/-- A row of the `stops` frame of `read_gtfs_timetable` after column
selection: stop_id, stop_name, parent_station (NaN modelled as `none`). -/
structure GtfsStopRow where
  stop_id : String
  stop_name : String
  parent_station : Option String
deriving DecidableEq

/-- A row of the `stop_times` frame after column selection and time
conversion: trip_id, stop_sequence, stop_id, arrival_time, departure_time
(times already converted to seconds by str2sec). -/
structure GtfsStopTimeRow where
  trip_id : String
  stop_sequence : Nat
  stop_id : String
  arrival_time : Nat
  departure_time : Nat
deriving DecidableEq

/-- A row of the `trips` frame after column selection. -/
structure GtfsTripRow where
  route_id : String
  service_id : String
  trip_id : String
  trip_headsign : String
deriving DecidableEq

/-- A row of the `calendar` frame (columns used by the merge in
`read_gtfs_timetable`); dates are YYYYMMDD integers, day flags are 0/1
integers. -/
structure CalendarRow where
  service_id : String
  start_date : Nat
  end_date : Nat
  monday : Nat
  tuesday : Nat
  wednesday : Nat
  thursday : Nat
  friday : Nat
  saturday : Nat
  sunday : Nat
deriving DecidableEq

/-- The GtfsTimetable dataclass: after `read_gtfs_timetable` the `trips`
frame carries the calendar columns merged in, so its rows are pairs. -/
structure GtfsTimetable where
  trips : List (GtfsTripRow × CalendarRow)
  calendar : List CalendarRow
  stop_times : List GtfsStopTimeRow
  stops : List GtfsStopRow

/-! ## Date filtering in read_gtfs_timetable (lines 141-175) -/

/-- The pandas merge `trips.merge(calendar[...], on="service_id")`: an inner
join keeping the left frame's row order. -/
def mergeOnServiceId (trips : List GtfsTripRow) (calendar : List CalendarRow) :
    List (GtfsTripRow × CalendarRow) :=
  trips.flatMap fun t =>
    (calendar.filter fun c => c.service_id == t.service_id).map fun c => (t, c)

/-- Modelled from the Python standard library:
`datetime.strptime(date, "%Y%m%d").weekday()` with Monday = 0 .. Sunday = 6,
computed with Zeller's congruence. -/
def pyWeekday (y m d : Nat) : Nat :=
  let mm := if m < 3 then m + 12 else m
  let yy := if m < 3 then y - 1 else y
  let K := yy % 100
  let J := yy / 100
  ((d + 13 * (mm + 1) / 5 + K + K / 4 + J / 4 + 5 * J) % 7 + 5) % 7

/-- `int(departure_date)` for a YYYYMMDD date given as its three components. -/
def dateInt (y m d : Nat) : Nat := y * 10000 + m * 100 + d

/-- Lines 148-175 of read_gtfs_timetable: the if/elif chain on the weekday,
each branch chaining the three pandas filters
start_date <= date, date <= end_date, weekday flag == 1.  A weekday value
outside 0..6 falls through the chain and leaves the frame unchanged, exactly
as the source's if/elif with no else. -/
def filterTripsOnDate (merged : List (GtfsTripRow × CalendarRow))
    (weekday ddInt : Nat) : List (GtfsTripRow × CalendarRow) :=
  if weekday = 0 then
    (((merged.filter fun p => decide (p.2.start_date ≤ ddInt)).filter
      fun p => decide (ddInt ≤ p.2.end_date)).filter fun p => p.2.monday == 1)
  else if weekday = 1 then
    (((merged.filter fun p => decide (p.2.start_date ≤ ddInt)).filter
      fun p => decide (ddInt ≤ p.2.end_date)).filter fun p => p.2.tuesday == 1)
  else if weekday = 2 then
    (((merged.filter fun p => decide (p.2.start_date ≤ ddInt)).filter
      fun p => decide (ddInt ≤ p.2.end_date)).filter fun p => p.2.wednesday == 1)
  else if weekday = 3 then
    (((merged.filter fun p => decide (p.2.start_date ≤ ddInt)).filter
      fun p => decide (ddInt ≤ p.2.end_date)).filter fun p => p.2.thursday == 1)
  else if weekday = 4 then
    (((merged.filter fun p => decide (p.2.start_date ≤ ddInt)).filter
      fun p => decide (ddInt ≤ p.2.end_date)).filter fun p => p.2.friday == 1)
  else if weekday = 5 then
    (((merged.filter fun p => decide (p.2.start_date ≤ ddInt)).filter
      fun p => decide (ddInt ≤ p.2.end_date)).filter fun p => p.2.saturday == 1)
  else if weekday = 6 then
    (((merged.filter fun p => decide (p.2.start_date ≤ ddInt)).filter
      fun p => decide (ddInt ≤ p.2.end_date)).filter fun p => p.2.sunday == 1)
  else merged

/-- The trip-selection step of `read_gtfs_timetable` (lines 141-175): merge
the trips frame with the calendar frame on service_id, then filter on the
departure date.  The CSV reading and agency filtering preceding it are file
IO and not part of any claim. -/
def read_gtfs_timetable_trips (trips : List GtfsTripRow)
    (calendar : List CalendarRow) (y m d : Nat) :
    List (GtfsTripRow × CalendarRow) :=
  filterTripsOnDate (mergeOnServiceId trips calendar) (pyWeekday y m d)
    (dateInt y m d)

/-- The calendar day-of-week flag corresponding to a Python weekday number
(Monday = 0 .. Sunday = 6), as the claim's phrase "the day-of-week flag
(monday..sunday) corresponding to d's weekday" selects it. -/
def dayFlag (c : CalendarRow) : Nat → Nat
  | 0 => c.monday
  | 1 => c.tuesday
  | 2 => c.wednesday
  | 3 => c.thursday
  | 4 => c.friday
  | 5 => c.saturday
  | _ => c.sunday

/-! ## Timetable conversion (gtfs_to_pyraptor_timetable, lines 227-329) -/

/-- Modelled from the spec: `TRANSFER_COST` is a fixed module constant
(section 3: "layover_seconds = TRANSFER_COST (a fixed constant, e.g.,
180 s)"); it lives in pyraptor/util.py, which is not among the sources. -/
def TRANSFER_COST : Nat := 180

/-- Modelled from the spec: `stations.by_id(id) -> Station` (section 4.A).
`Stations.get` lives in pyraptor/model/structures.py, which is not among the
sources; per the spec the lookup key is the station id.  Python's `next`
over the container yields the first match, `None` when there is none. -/
def stationsGet (stations : List Station) (i : String) : Option Station :=
  stations.find? fun st => st.id == i

/-- Modelled from the spec: `Stops.get(stop_id)` retrieves a stop by its
stop_id (stops are "identified by stop_id", section 3); the container lives
in pyraptor/model/structures.py, which is not among the sources. -/
def stopsGet (stops : List Stop) (i : String) : Option Stop :=
  stops.find? fun s => s.id == i

/-- First loop of `gtfs_to_pyraptor_timetable` (lines 241-244): every stops
row whose parent_station is NaN becomes `Station(s.stop_id, s.stop_name)`. -/
def buildStations (rows : List GtfsStopRow) : List Station :=
  rows.filterMap fun r =>
    match r.parent_station with
    | none => some { id := r.stop_id, name := r.stop_name }
    | some _ => none

/-- A Python loop that builds one output per input and dies on a failing
lookup: `some` of all outputs when every element maps, `none` as soon as one
does not (this is mapM specialised to Option, written recursively for easy
induction). -/
def optionMapList {α β : Type} (f : α → Option β) : List α → Option (List β)
  | [] => some []
  | x :: xs =>
    match f x, optionMapList f xs with
    | some y, some ys => some (y :: ys)
    | _, _ => none

/-- Second loop of `gtfs_to_pyraptor_timetable` (lines 246-254): every stops
row with a parent_station becomes `Stop(s.stop_id, s.stop_name, station)`
where station is the first already-built station whose id equals the parent;
when no station matches, the source dereferences `None` and the conversion
dies, modelled by `none`. -/
def buildStops (stations : List Station) (rows : List GtfsStopRow) :
    Option (List Stop) :=
  optionMapList
    (fun rp => (stationsGet stations rp.2).map
      fun st => ({ id := rp.1.stop_id, name := rp.1.stop_name, station := st } : Stop))
    (rows.filterMap fun r => r.parent_station.map fun p => (r, p))

/-- The per-station stop list maintained by `station.add_stop` in the second
loop: the stops attached to a given station, in row order. -/
def stationStops (stops : List Stop) (st : Station) : List Stop :=
  stops.filter fun s => s.station == st

/-- The defaultdict grouping of the stop_times frame by trip_id
(lines 259-261), preserving frame order within each key. -/
def stopTimesFor (sts : List GtfsStopTimeRow) (tid : String) :
    List GtfsStopTimeRow :=
  sts.filter fun s => s.trip_id == tid

/-- `sorted(stop_times[trip_id], key=lambda s: int(s.stop_sequence))`
(lines 274-276): Python's sort is stable, as is insertionSort. -/
def sortByStopSeq (rows : List GtfsStopTimeRow) : List GtfsStopTimeRow :=
  rows.insertionSort fun a b => a.stop_sequence ≤ b.stop_sequence

/-- The icd supplement fare, `calculate_icd_fare` (lines 332-344); the float
literal 1.67 is modelled as the exact rational 167/100. -/
def calculate_icd_fare (trip : Trip) (stop : Stop) (stations : List Station) : ℚ :=
  if 900 ≤ trip.hint ∧ trip.hint ≤ 1099 then
    if (trip.hint % 2 = 0 ∧ stationsGet stations ("Schiphol Airport") = some stop.station)
        ∨ (trip.hint % 2 = 1 ∧ stationsGet stations ("Rotterdam Centraal") = some stop.station) then
      167 / 100
    else 0
  else 0

/-- Modelled from the spec: the initial value of the `hint` attribute of a
fresh `Trip()`.  The spec records as an open question that `trip.hint`
"appears derived but is never explicitly set in the visible code"
(section 9); no claim depends on the value chosen here. -/
def tripDefaultHint : Int := 0

/-- The inner loop over a trip's sorted stop times (lines 277-290): enumerate
them, look each stop up, and build
`TripStopTime(trip, stopidx, stop, dts_arr, dts_dep, fare)` with
`fare = calculate_icd_fare(trip, stop, stations) if icd_fix is True else 0`;
a failing stop lookup kills the conversion (`none`). -/
def buildTripStopTimes (stations : List Station) (stops : List Stop)
    (icd_fix : Bool) (trip : Trip) (rows : List GtfsStopTimeRow) :
    Option (List TripStopTime) :=
  optionMapList
    (fun is =>
      (stopsGet stops is.2.stop_id).map fun stop =>
        ({ trip := trip, stopidx := is.1, stop := stop, dts_arr := is.2.arrival_time,
           dts_dep := is.2.departure_time,
           fare := if icd_fix then calculate_icd_fare trip stop stations else 0 } : TripStopTime))
    rows.enum

/-- The trips loop of `gtfs_to_pyraptor_timetable` (lines 269-294): one
`(trip, its trip stop times)` pair per trips-frame row. -/
def buildTrips (g : GtfsTimetable) (stations : List Station)
    (stops : List Stop) (icd_fix : Bool) :
    Option (List (Trip × List TripStopTime)) :=
  optionMapList
    (fun tr =>
      (buildTripStopTimes stations stops icd_fix
          { long_name := tr.1.trip_headsign, hint := tripDefaultHint }
          (sortByStopSeq (stopTimesFor g.stop_times tr.1.trip_id))).map
        fun tsts => ({ long_name := tr.1.trip_headsign, hint := tripDefaultHint }, tsts))
    g.trips

/-- The transfers loop (lines 306-316): for every station, a directed
Transfer with layover TRANSFER_COST between every ordered pair of distinct
stops of that station. -/
def buildTransfers (stations : List Station) (stops : List Stop) :
    List Transfer :=
  stations.flatMap fun st =>
    (stationStops stops st).flatMap fun si =>
      ((stationStops stops st).filter fun sj => !(si == sj)).map
        fun sj => { from_stop := si, to_stop := sj, layovertime := TRANSFER_COST }

/-- `gtfs_to_pyraptor_timetable` (lines 227-329).  `if trip:` (line 293) is
the truthiness of the Trip container, modelled as "has at least one stop
time"; `trip_stop_times.add` runs for every stop time regardless.  A failed
station or stop lookup raises in Python, modelled by `none`. -/
def gtfs_to_pyraptor_timetable (g : GtfsTimetable) (icd_fix : Bool) :
    Option Timetable :=
  let stations := buildStations g.stops
  match buildStops stations g.stops with
  | none => none
  | some stops =>
    match buildTrips g stations stops icd_fix with
    | none => none
    | some tat =>
      some { stations := stations, stops := stops
             trips := (tat.filter fun p => !p.2.isEmpty).map Prod.fst
             trip_stop_times := (tat.map Prod.snd).flatten
             transfers := buildTransfers stations stops }

/-! ## The range-query driver (pyraptor/query_range_mcraptor.py) -/

/-- Modelled from the spec: `get_stops(station_id) -> [Stop]` (section 4.A);
`Stations.get_stops` lives in pyraptor/model/structures.py, which is not
among the sources.  A station's stops are the stops attached to it. -/
def get_stops (tt : Timetable) (station_id : String) : List Stop :=
  tt.stops.filter fun s => s.station.id == station_id

/-- Modelled from the spec: `trip_stop_times_in_range(stops, [t_lo, t_hi])`
"returning every TripStopTime whose stop is in the set and whose
departure_seconds lies in the closed window" (section 4.A); the container
method lives in pyraptor/model/structures.py, which is not among the
sources.  The source call site (query_range_mcraptor.py, lines 112-114)
passes only the stop set and no window, so the call as embedded applies no
window filter. -/
def get_trip_stop_times_in_range (tsts : List TripStopTime)
    (stops : List Stop) : List TripStopTime :=
  tsts.filter fun t => stops.contains t.stop

/-- `sorted(list(set(xs)), reverse=True)` (lines 115-117): the distinct
values in descending order. -/
def sortedUniqueDesc (l : List Nat) : List Nat :=
  l.dedup.insertionSort fun a b => b ≤ a

/-- The candidate departure times of `run_range_mcraptor` (lines 111-117):
sorted-unique departure seconds of every trip stop time at an origin stop,
iterated in descending order. -/
def potential_dep_secs (tt : Timetable) (origin_station : String) : List Nat :=
  sortedUniqueDesc
    ((get_trip_stop_times_in_range tt.trip_stop_times
        (get_stops tt origin_station)).map fun t => t.dts_dep)

/-- The candidate departure times as the spec words them (section 4.F,
step 1): "sorted-unique departure_seconds of every TripStopTime whose stop
is an origin stop and whose departure lies in [t_lo, t_hi]", in descending
order.  Stated from the spec for comparison with `potential_dep_secs`. -/
def spec_candidate_deps (tt : Timetable) (origin_station : String)
    (tlo thi : Nat) : List Nat :=
  sortedUniqueDesc
    ((tt.trip_stop_times.filter fun t =>
        (get_stops tt origin_station).contains t.stop
          && decide (tlo ≤ t.dts_dep) && decide (t.dts_dep ≤ thi)).map
      fun t => t.dts_dep)

/-- A Python dict as an association list; `dinsert` is `d[k] = v` during
construction: overwrite in place when the key exists, append otherwise. -/
def dinsert {α : Type} (k : String) (v : α) :
    List (String × α) → List (String × α)
  | [] => [(k, v)]
  | kv :: rest => if kv.1 = k then (k, v) :: rest else kv :: dinsert k v rest

/-- `d.pop(k, None)`: drop the entry with the key, when present. -/
def dpop {α : Type} (k : String) : List (String × α) → List (String × α)
  | [] => []
  | kv :: rest => if kv.1 = k then rest else kv :: dpop k rest

/-- `d[k]` as a total lookup. -/
def dlookup {α : Type} (k : String) : List (String × α) → Option α
  | [] => none
  | kv :: rest => if kv.1 = k then some kv.2 else dlookup k rest

/-- `d[k].extend(js)`: append to the value at an existing key. -/
def dextend {α : Type} (k : String) (js : List α) :
    List (String × List α) → List (String × List α)
  | [] => []
  | kv :: rest =>
    if kv.1 = k then (kv.1, kv.2 ++ js) :: rest else kv :: dextend k js rest

/-- Lines 106-109: the per-destination stop lists, one dict entry per
station keyed by its display name, with the key equal to the origin_station
argument popped. -/
def destination_stops (tt : Timetable) (origin_station : String) :
    List (String × List Stop) :=
  dpop origin_station
    (tt.stations.foldl (fun d st => dinsert st.name (get_stops tt st.id) d) [])

/-- Modelled from the spec: the external search components used by the
driver — `McRaptorAlgorithm.run` (section 4.D, returning the per-round bags
and the number of executed rounds, optionally seeded),
`best_legs_to_destination_station` and `reconstruct_journeys`
(section 4.E) — live in pyraptor/model/mcraptor.py, which is not among the
sources.  The driver claims hold for every instantiation, so they are
abstract parameters; `run` takes the timetable the algorithm object is
constructed with. -/
structure SearchApi (Bag Leg J : Type) where
  run : Timetable → List Stop → Nat → Nat → Option Bag → (Nat → Bag) × Nat
  bestLegs : List Stop → Bag → List Leg
  reconstruct : List Stop → List Leg → (Nat → Bag) → Nat → List J

/-- The inner destination loop of one range iteration (lines 144-154): for
every destination, compute the best legs from the final-round bag and, when
there are any, extend that destination's journey accumulator with the
reconstructed journeys. -/
def accumDest {Bag Leg J : Type} (api : SearchApi Bag Leg J)
    (from_stops : List Stop) (dsts : List (String × List Stop))
    (acc : List (String × List J)) (r : (Nat → Bag) × Nat) :
    List (String × List J) :=
  dsts.foldl
    (fun a p =>
      if (api.bestLegs p.2 (r.1 r.2)).length ≠ 0 then
        dextend p.1 (api.reconstruct from_stops (api.bestLegs p.2 (r.1 r.2)) r.1 r.2) a
      else a)
    acc

/-- One iteration of the departure-time loop (lines 132-154).  The state is
(journey accumulators, last_round_bag); `none` models the not-yet-assigned
`last_round_bag` before the first iteration, so the `none` branch is the
`dep_index == 0` call without a seed and the `some` branch the seeded call.
`copy(bag_round_stop[actual_rounds])` is a shallow copy, the identity on the
immutable values of the embedding. -/
def rangeStep {Bag Leg J : Type} (api : SearchApi Bag Leg J) (tt : Timetable)
    (from_stops : List Stop) (dsts : List (String × List Stop))
    (max_rounds : Nat) (s : List (String × List J) × Option Bag)
    (dep_secs : Nat) : List (String × List J) × Option Bag :=
  let r :=
    match s.2 with
    | none => api.run tt from_stops dep_secs max_rounds none
    | some b => api.run tt from_stops dep_secs max_rounds (some b)
  (accumDest api from_stops dsts s.1 r, some (r.1 r.2))

/-- The final dedup pass (lines 159-165): walk the accumulated journeys and
keep each one only if it is not already among those kept. -/
def keep_unique_journeys {J : Type} [DecidableEq J] (journeys : List J) :
    List J :=
  journeys.foldl (fun uniq j => if j ∈ uniq then uniq else uniq ++ [j]) []

/-- `run_range_mcraptor(timetable, origin_station, max_rounds)`
(lines 95-167): candidate departures in descending order, the seeded
departure loop, then per-destination dedup. -/
def run_range_mcraptor {Bag Leg J : Type} [DecidableEq J]
    (api : SearchApi Bag Leg J) (tt : Timetable) (origin_station : String)
    (max_rounds : Nat) : List (String × List J) :=
  let from_stops := get_stops tt origin_station
  let dsts := destination_stops tt origin_station
  let init := dsts.map fun p => (p.1, ([] : List J))
  let final :=
    ((potential_dep_secs tt origin_station).foldl
      (rangeStep api tt from_stops dsts max_rounds) (init, none)).1
  final.map fun p => (p.1, keep_unique_journeys p.2)

/-- The spec's error kinds for a range query (section 7); only InvalidInput
concerns the driver. -/
inductive RangeQueryError : Type
  | invalidInput : RangeQueryError
deriving DecidableEq

/-- `run_range_mcraptor` viewed through an error channel: the function body
(lines 95-167) contains no raise statement and no error reporting of its
own, so every execution that terminates returns its dict normally. -/
def run_range_mcraptor_exc {Bag Leg J : Type} [DecidableEq J]
    (api : SearchApi Bag Leg J) (tt : Timetable) (origin_station : String)
    (max_rounds : Nat) : Except RangeQueryError (List (String × List J)) :=
  Except.ok (run_range_mcraptor api tt origin_station max_rounds)

/-- The claim-side description of the departure loop's search calls
(section 4.F step 2): the first search is unseeded and each subsequent
search is seeded with the immediately preceding search's final-round bag
`bag_round_stop[actual_rounds]`; the list collects each search's result. -/
def seededSearchResults {Bag Leg J : Type} (api : SearchApi Bag Leg J)
    (tt : Timetable) (from_stops : List Stop) (max_rounds : Nat) :
    List Nat → Option Bag → List ((Nat → Bag) × Nat)
  | [], _ => []
  | d :: ds, seed =>
    let r := api.run tt from_stops d max_rounds seed
    r :: seededSearchResults api tt from_stops max_rounds ds (some (r.1 r.2))

/-- The claim-side first-occurrence dedup: keep an element exactly when it
has not occurred before, so only the first occurrence of each element
survives, in the order of the input. -/
def firstOccurAux {J : Type} [DecidableEq J] (seen : List J) :
    List J → List J
  | [] => []
  | x :: l =>
    if x ∈ seen then firstOccurAux seen l else x :: firstOccurAux (x :: seen) l

/-- First occurrences of each element of a list, in order. -/
def firstOccur {J : Type} [DecidableEq J] (l : List J) : List J :=
  firstOccurAux [] l

/-- The departure-time loop of `run_range_mcraptor` as a transition system:
one `step` per candidate departure time, each applying `rangeStep` (the
loop body of lines 132-154) to the current state.  Running the loop relates
the initial state to a final state. -/
inductive RangeLoopRel {Bag Leg J : Type} (api : SearchApi Bag Leg J)
    (tt : Timetable) (from_stops : List Stop)
    (dsts : List (String × List Stop)) (max_rounds : Nat) :
    List Nat → (List (String × List J) × Option Bag) →
    (List (String × List J) × Option Bag) → Prop
  | done (s : List (String × List J) × Option Bag) :
      RangeLoopRel api tt from_stops dsts max_rounds [] s s
  | step (d : Nat) (ds : List Nat)
      (s s' : List (String × List J) × Option Bag)
      (h : RangeLoopRel api tt from_stops dsts max_rounds ds
        (rangeStep api tt from_stops dsts max_rounds s d) s') :
      RangeLoopRel api tt from_stops dsts max_rounds (d :: ds) s s'

/-- A complete execution of `run_range_mcraptor` (lines 95-167) described
relationally: the departure loop runs from the initial state (empty
accumulators, no seed bag) over the candidate departures, and the result is
the final accumulators after the dedup pass. -/
inductive RangeQueryRuns {Bag Leg J : Type} [DecidableEq J]
    (api : SearchApi Bag Leg J) (tt : Timetable) (origin_station : String)
    (max_rounds : Nat) : List (String × List J) → Prop
  | intro (fin : List (String × List J) × Option Bag)
      (h : RangeLoopRel api tt (get_stops tt origin_station)
        (destination_stops tt origin_station) max_rounds
        (potential_dep_secs tt origin_station)
        ((destination_stops tt origin_station).map fun p => (p.1, ([] : List J)), none)
        fin) :
      RangeQueryRuns api tt origin_station max_rounds
        (fin.1.map fun p => (p.1, keep_unique_journeys p.2))

/-! ## The comparison tool (src/src/testing.py) -/

/-- A serialized journey leg, with the fields named by the external contract
(spec section 6): route_id, from_stop, to_stop, departure_time,
arrival_time.  The serialized values are modelled as strings. -/
structure LegDict where
  route_id : String
  from_stop : String
  to_stop : String
  departure_time : String
  arrival_time : String
deriving DecidableEq

/-- A serialized journey as loaded from a JSON output file: departure_time,
arrival_time, total_duration, num_transfers and the leg list (spec
section 6; `journey.get` defaults never fire on this fixed schema). -/
structure JourneyDict where
  departure_time : String
  arrival_time : String
  total_duration : Nat
  num_transfers : Nat
  legs : List LegDict
deriving DecidableEq

/-- Python's string comparison: strict lexicographic comparison of the code
point sequences. -/
def strLtb : List Char → List Char → Bool
  | [], [] => false
  | [], _ :: _ => true
  | _ :: _, [] => false
  | c :: cs, d :: ds =>
    if c.toNat < d.toNat then true
    else if d.toNat < c.toNat then false
    else strLtb cs ds

/-- The sort key of `normalize_journey` (testing.py lines 30-33):
`(departure_time, route_id, from_stop)`. -/
def legKey (l : LegDict) : String × String × String :=
  (l.departure_time, l.route_id, l.from_stop)

/-- Python's comparison of two key tuples: lexicographic over the three
string components. -/
def keyLtb (a b : String × String × String) : Bool :=
  strLtb a.1.data b.1.data
    || (a.1 == b.1
        && (strLtb a.2.1.data b.2.1.data
            || (a.2.1 == b.2.1 && strLtb a.2.2.data b.2.2.data)))

/-- The leg order `sorted` uses in `normalize_journey`: a comes no later
than b when b's key is not strictly below a's. -/
def legLe (a b : LegDict) : Prop := keyLtb (legKey b) (legKey a) = false

instance : DecidableRel legLe := fun a b =>
  inferInstanceAs (Decidable (keyLtb (legKey b) (legKey a) = false))

/-- The strict leg order on keys, used to state uniqueness of the sorted
order when keys are pairwise distinct. -/
def legLt (a b : LegDict) : Prop := keyLtb (legKey a) (legKey b) = true

/-- `sorted(legs, key=...)` (testing.py line 30): Python's sort is stable;
insertionSort with a non-strict key comparison is the same stable sort. -/
def sortLegs (ls : List LegDict) : List LegDict :=
  ls.insertionSort legLe

/-- `normalize_journey` (testing.py lines 21-37): sort the legs by
(departure_time, route_id, from_stop); with string fields the guarded
KeyError/TypeError cannot fire. -/
def normalize_journey (j : JourneyDict) : JourneyDict :=
  { j with legs := sortLegs j.legs }

/-- The per-leg tuple of `journey_to_comparable_tuple` (testing.py
lines 52-58). -/
def legTuple (l : LegDict) : String × String × String × String × String :=
  (l.route_id, l.from_stop, l.to_stop, l.departure_time, l.arrival_time)

/-- The comparable-tuple type built by `journey_to_comparable_tuple`. -/
def CompTuple : Type :=
  String × String × Nat × Nat × List (String × String × String × String × String)

instance : DecidableEq CompTuple := fun a b => by
  have h : DecidableEq (List (String × String × String × String × String)) :=
    inferInstance
  exact instDecidableEqProd a b

/-- `journey_to_comparable_tuple` (testing.py lines 39-65): the key fields
plus the tuple of leg tuples; with the fixed schema the exception fallback
cannot fire. -/
def journey_to_comparable_tuple (j : JourneyDict) : CompTuple :=
  (j.departure_time, j.arrival_time, j.total_duration, j.num_transfers,
    j.legs.map legTuple)

/-- The Python set built in `compare_journey_sets` (testing.py lines 71-72):
comparable tuples of the normalized journeys. -/
def tupleSet (js : List JourneyDict) : Finset CompTuple :=
  (js.map fun j => journey_to_comparable_tuple (normalize_journey j)).toFinset

/-- The `identical` verdict of `compare_journey_sets` (testing.py line 89):
`len(only_in_original) == 0 and len(only_in_parallel) == 0`, where
`only_in_original = original_set - parallel_set` and symmetrically
(lines 75-76). -/
def compare_journey_sets_identical (original parallel : List JourneyDict) :
    Bool :=
  decide ((tupleSet original \ tupleSet parallel).card = 0)
    && decide ((tupleSet parallel \ tupleSet original).card = 0)

/-! ## Concrete instances used by witnesses and counterexamples -/

/-- A trivial instantiation of the external search components: a search
that reaches nothing.  Used to evaluate the driver on concrete inputs where
the departure loop body never runs or never finds legs. -/
def dummyApi : SearchApi Unit Unit Unit where
  run := fun _ _ _ _ _ => (fun _ => (), 0)
  bestLegs := fun _ _ => []
  reconstruct := fun _ _ _ _ => []

/-- Station A of the two-station example timetable; its id and display name
coincide. -/
def stationA : Station := { id := "A", name := "A" }

/-- Station B of the two-station example timetable. -/
def stationB : Station := { id := "B", name := "B" }

/-- A two-station timetable with one platform per station and no trips at
all: the candidate departure set of any query on it is empty. -/
def ttAB : Timetable where
  stations := [stationA, stationB]
  stops := [{ id := "A1", name := "A platform", station := stationA },
            { id := "B1", name := "B platform", station := stationB }]
  trips := []
  trip_stop_times := []
  transfers := []

/-- The origin station of the window counterexample. -/
def stationO : Station := { id := "O", name := "Origin" }

/-- The single platform of the origin station of the window counterexample. -/
def stopO1 : Stop := { id := "O1", name := "Origin platform", station := stationO }

/-- A timetable whose single trip stop time departs from the origin platform
at second 100. -/
def ttO : Timetable where
  stations := [stationO]
  stops := [stopO1]
  trips := [{ long_name := "T", hint := 0 }]
  trip_stop_times := [{ trip := { long_name := "T", hint := 0 }, stopidx := 0,
                        stop := stopO1, dts_arr := 100, dts_dep := 100, fare := 0 }]
  transfers := []

/-- A station whose display name is "Schiphol Airport" while its id, as
`gtfs_to_pyraptor_timetable` constructs ids, is a GTFS stop_id. -/
def stationS1 : Station := { id := "S1", name := "Schiphol Airport" }

/-- A platform of that station. -/
def stopS1P : Stop := { id := "P1", name := "Platform 1", station := stationS1 }

/-- An even-hinted intercity trip inside the supplement window. -/
def tripIC : Trip := { long_name := "IC", hint := 900 }

/-- A calendar row valid on every day of 2025. -/
def calAll2025 : CalendarRow :=
  { service_id := "s1", start_date := 20250101, end_date := 20251231,
    monday := 1, tuesday := 1, wednesday := 1, thursday := 1, friday := 1,
    saturday := 1, sunday := 1 }

/-- A one-station, two-platform GTFS feed with a single two-stop trip. -/
def gtfsEx : GtfsTimetable where
  trips := [({ route_id := "r1", service_id := "s1", trip_id := "t1",
               trip_headsign := "Sprinter" }, calAll2025)]
  calendar := [calAll2025]
  stop_times := [{ trip_id := "t1", stop_sequence := 1, stop_id := "P1",
                   arrival_time := 100, departure_time := 110 },
                 { trip_id := "t1", stop_sequence := 2, stop_id := "P2",
                   arrival_time := 200, departure_time := 200 }]
  stops := [{ stop_id := "ST", stop_name := "Central", parent_station := none },
            { stop_id := "P1", stop_name := "Platform 1", parent_station := some "ST" },
            { stop_id := "P2", stop_name := "Platform 2", parent_station := some "ST" }]

/-- Two legs sharing the whole sort key (departure_time, route_id,
from_stop) while differing in to_stop and arrival_time. -/
def legX : LegDict :=
  { route_id := "R1", from_stop := "S1", to_stop := "X",
    departure_time := "08:00:00", arrival_time := "08:10:00" }

/-- The second key-equal leg. -/
def legY : LegDict :=
  { route_id := "R1", from_stop := "S1", to_stop := "Y",
    departure_time := "08:00:00", arrival_time := "08:20:00" }

/-- A journey whose legs are the two key-equal legs in one order. -/
def journeyXY : JourneyDict :=
  { departure_time := "08:00:00", arrival_time := "08:20:00",
    total_duration := 1200, num_transfers := 0, legs := [legX, legY] }

/-- The same journey with its legs permuted. -/
def journeyYX : JourneyDict :=
  { departure_time := "08:00:00", arrival_time := "08:20:00",
    total_duration := 1200, num_transfers := 0, legs := [legY, legX] }

/-- Two legs with distinct sort keys, for the amended leg-permutation
property. -/
def legC : LegDict :=
  { route_id := "R1", from_stop := "S1", to_stop := "X",
    departure_time := "08:00:00", arrival_time := "08:10:00" }

/-- The second distinct-key leg. -/
def legD : LegDict :=
  { route_id := "R2", from_stop := "S2", to_stop := "Y",
    departure_time := "08:30:00", arrival_time := "08:40:00" }

/-- The pyraptor timetable built from the example feed (the conversion
succeeds on it, as the round-trip theorem witnesses record). -/
def ttEx : Timetable :=
  (gtfs_to_pyraptor_timetable gtfsEx false).getD
    { stations := [], stops := [], trips := [], trip_stop_times := [], transfers := [] }

/-- The first trip stop time of the example timetable (with a junk default
that the example never hits). -/
def tstEx0 : TripStopTime :=
  ttEx.trip_stop_times.head?.getD
    { trip := { long_name := "", hint := 0 },
      stopidx := 0,
      stop := { id := "", name := "", station := { id := "", name := "" } },
      dts_arr := 0, dts_dep := 0, fare := 0 }

/-- The station the example feed's parentless row becomes. -/
def stCentral : Station := { id := "ST", name := "Central" }

/-- The first platform the example feed builds. -/
def stopP1ex : Stop := { id := "P1", name := "Platform 1", station := stCentral }

/-- The second platform the example feed builds. -/
def stopP2ex : Stop := { id := "P2", name := "Platform 2", station := stCentral }

/-! # Theorems

One principal theorem per claim, preceded by shared helper lemmas. -/

/-- The Python weekday number is always one of 0..6. -/
theorem pyWeekday_lt (y m d : Nat) : pyWeekday y m d < 7 :=
  Nat.mod_lt _ (by norm_num)

/-- Membership in the weekday filter chain of read_gtfs_timetable: a merged
row survives exactly when it satisfies the date bounds and its weekday flag
is set. -/
theorem mem_filterTripsOnDate (merged : List (GtfsTripRow × CalendarRow))
    (w dd : Nat) (hw : w < 7) (p : GtfsTripRow × CalendarRow) :
    p ∈ filterTripsOnDate merged w dd ↔
      p ∈ merged ∧ p.2.start_date ≤ dd ∧ dd ≤ p.2.end_date ∧
        dayFlag p.2 w = 1 := by
  interval_cases w <;>
    simp [filterTripsOnDate, dayFlag, List.mem_filter, and_assoc] <;>
    tauto

/-- Membership in the pandas inner merge on service_id. -/
theorem mem_mergeOnServiceId (trips : List GtfsTripRow)
    (calendar : List CalendarRow) (t : GtfsTripRow) (c : CalendarRow) :
    (t, c) ∈ mergeOnServiceId trips calendar ↔
      t ∈ trips ∧ c ∈ calendar ∧ c.service_id = t.service_id := by
  simp only [mergeOnServiceId, List.mem_flatMap, List.mem_map,
    List.mem_filter, beq_iff_eq, Prod.mk.injEq]
  constructor
  · rintro ⟨t', ht', c', ⟨hc', hsid⟩, rfl, rfl⟩
    exact ⟨ht', hc', hsid⟩
  · rintro ⟨ht, hc, hsid⟩
    exact ⟨t, ht, c, ⟨hc, hsid⟩, rfl, rfl⟩

/-- Row-level characterisation of the date-filtered merge. -/
theorem mem_read_gtfs_timetable_trips (trips : List GtfsTripRow)
    (calendar : List CalendarRow) (y m d : Nat) (t : GtfsTripRow)
    (c : CalendarRow) :
    (t, c) ∈ read_gtfs_timetable_trips trips calendar y m d ↔
      t ∈ trips ∧ c ∈ calendar ∧ c.service_id = t.service_id ∧
        c.start_date ≤ dateInt y m d ∧ dateInt y m d ≤ c.end_date ∧
        dayFlag c (pyWeekday y m d) = 1 := by
  rw [read_gtfs_timetable_trips,
    mem_filterTripsOnDate _ _ _ (pyWeekday_lt y m d), mem_mergeOnServiceId]
  tauto

/-- C4: for every departure date, the trip-selection step of
read_gtfs_timetable keeps a trip exactly when some calendar row matched by
service_id has start_date <= date <= end_date and the day-of-week flag for
the date's weekday equal to 1; every trip failing either condition is
excluded. -/
theorem read_gtfs_timetable_keeps_trip_iff (trips : List GtfsTripRow)
    (calendar : List CalendarRow) (y m d : Nat) (t : GtfsTripRow) :
    (∃ p ∈ read_gtfs_timetable_trips trips calendar y m d, p.1 = t) ↔
      t ∈ trips ∧ ∃ c ∈ calendar, c.service_id = t.service_id ∧
        c.start_date ≤ dateInt y m d ∧ dateInt y m d ≤ c.end_date ∧
        dayFlag c (pyWeekday y m d) = 1 := by
  constructor
  · rintro ⟨⟨t', c⟩, hp, rfl⟩
    rw [mem_read_gtfs_timetable_trips] at hp
    exact ⟨hp.1, c, hp.2.1, hp.2.2⟩
  · rintro ⟨ht, c, hc, hrest⟩
    exact ⟨(t, c), (mem_read_gtfs_timetable_trips _ _ _ _ _ _ _).2
      ⟨ht, hc, hrest⟩, rfl⟩

/-- Elements produced by an `optionMapList` loop come from applying the body
to some input element. -/
theorem optionMapList_mem {α β : Type} (f : α → Option β) :
    ∀ {xs : List α} {ys : List β}, optionMapList f xs = some ys →
      ∀ y ∈ ys, ∃ x ∈ xs, f x = some y := by
  intro xs
  induction xs with
  | nil =>
    intro ys h y hy
    simp only [optionMapList, Option.some.injEq] at h
    subst h
    simp at hy
  | cons x xs ih =>
    intro ys h y hy
    simp only [optionMapList] at h
    cases hfx : f x with
    | none => rw [hfx] at h; simp at h
    | some y0 =>
      cases hrec : optionMapList f xs with
      | none => rw [hfx, hrec] at h; simp at h
      | some ys0 =>
        rw [hfx, hrec] at h
        simp only [Option.some.injEq] at h
        subst h
        rcases List.mem_cons.mp hy with rfl | hy'
        · exact ⟨x, List.mem_cons_self x xs, hfx⟩
        · obtain ⟨x', hx', hfx'⟩ := ih hrec y hy'
          exact ⟨x', List.mem_cons_of_mem x hx', hfx'⟩

/-- When the icd fix is off, every trip stop time the conversion constructs
carries fare 0. -/
theorem fare_zero_of_icd_off (g : GtfsTimetable) (tt : Timetable)
    (h : gtfs_to_pyraptor_timetable g false = some tt) :
    ∀ tst ∈ tt.trip_stop_times, tst.fare = 0 := by
  simp only [gtfs_to_pyraptor_timetable] at h
  split at h
  · simp at h
  rename_i stops hbs
  split at h
  · simp at h
  rename_i tat hbt
  simp only [Option.some.injEq] at h
  subst h
  intro tst htst
  simp only [List.mem_flatten, List.mem_map] at htst
  obtain ⟨l, ⟨pair, hpair, hl⟩, htst⟩ := htst
  subst hl
  unfold buildTrips at hbt
  obtain ⟨tr, _, hf⟩ := optionMapList_mem _ hbt pair hpair
  rw [Option.map_eq_some'] at hf
  obtain ⟨tsts, hb, hpr⟩ := hf
  subst hpr
  unfold buildTripStopTimes at hb
  obtain ⟨is, _, hmk⟩ := optionMapList_mem _ hb tst htst
  rw [Option.map_eq_some'] at hmk
  obtain ⟨stop, _, hmk⟩ := hmk
  subst hmk
  simp

/-- C5 counterexample: a station displayed as "Schiphol Airport" whose id is
an ordinary GTFS stop_id.  The stop's station is the (unique, present)
station named "Schiphol Airport" and the hint 900 is even and in range, so
the claim demands the fare 1.67; the code, which looks the station up by id,
returns 0. -/
theorem calculate_icd_fare_name_counterexample :
    stationS1 ∈ [stationS1] ∧ stationS1.name = "Schiphol Airport" ∧
    stopS1P.station = stationS1 ∧ tripIC.hint = 900 ∧
    calculate_icd_fare tripIC stopS1P [stationS1] = 0 ∧
    calculate_icd_fare tripIC stopS1P [stationS1] ≠ 167 / 100 := by
  have h0 : calculate_icd_fare tripIC stopS1P [stationS1] = 0 := by
    norm_num [calculate_icd_fare, stationsGet, tripIC, stopS1P, stationS1]
    exact ⟨by decide, by decide⟩
  refine ⟨by simp, rfl, rfl, rfl, h0, ?_⟩
  rw [h0]
  norm_num

/-- C5 (amended): `calculate_icd_fare` returns 1.67 exactly when
900 <= trip.hint <= 1099 and either (hint even and the stop's station is the
station the id lookup stations.get("Schiphol Airport") returns) or (hint odd
and the stop's station is the one stations.get("Rotterdam Centraal")
returns); in every other case it returns 0, and with the icd fix disabled
every constructed TripStopTime has fare 0. -/
theorem calculate_icd_fare_spec (trip : Trip) (stop : Stop)
    (stations : List Station) (g : GtfsTimetable) (tt : Timetable) :
    (calculate_icd_fare trip stop stations = 167 / 100 ↔
      900 ≤ trip.hint ∧ trip.hint ≤ 1099 ∧
        ((trip.hint % 2 = 0 ∧
            stationsGet stations ("Schiphol Airport") = some stop.station) ∨
         (trip.hint % 2 = 1 ∧
            stationsGet stations ("Rotterdam Centraal") = some stop.station))) ∧
    (calculate_icd_fare trip stop stations = 167 / 100 ∨
      calculate_icd_fare trip stop stations = 0) ∧
    (gtfs_to_pyraptor_timetable g false = some tt →
      ∀ tst ∈ tt.trip_stop_times, tst.fare = 0) := by
  refine ⟨?_, ?_, fare_zero_of_icd_off g tt⟩
  · unfold calculate_icd_fare
    split_ifs with h1 h2
    · exact ⟨fun _ => ⟨h1.1, h1.2, h2⟩, fun _ => rfl⟩
    · exact ⟨fun hq => absurd hq (by norm_num),
        fun hc => absurd hc.2.2 h2⟩
    · exact ⟨fun hq => absurd hq (by norm_num),
        fun hc => absurd ⟨hc.1, hc.2.1⟩ h1⟩
  · unfold calculate_icd_fare
    split_ifs <;> simp

/-- Witness for `calculate_icd_fare_spec` at the example feed: its first
trip stop time exists and carries fare 0. -/
theorem calculate_icd_fare_spec_witness :
    tstEx0 ∈ ttEx.trip_stop_times ∧ tstEx0.fare = 0 :=
  ⟨by decide,
    (calculate_icd_fare_spec tripIC stopS1P [stationS1] gtfsEx ttEx).2.2
      (by rfl) tstEx0 (by decide)⟩

/-- A stop is among a station's stops exactly when it is a built stop
attached to that station. -/
theorem mem_stationStops (stops : List Stop) (st : Station) (s : Stop) :
    s ∈ stationStops stops st ↔ s ∈ stops ∧ s.station = st := by
  simp [stationStops, List.mem_filter]

/-- Membership in the transfer list built by the transfers loop. -/
theorem mem_buildTransfers (stations : List Station) (stops : List Stop)
    (tr : Transfer) :
    tr ∈ buildTransfers stations stops ↔
      ∃ st ∈ stations, ∃ s1 ∈ stationStops stops st,
        ∃ s2 ∈ stationStops stops st, s1 ≠ s2 ∧
          tr = { from_stop := s1, to_stop := s2, layovertime := TRANSFER_COST } := by
  simp only [buildTransfers, List.mem_flatMap, List.mem_map, List.mem_filter,
    Bool.not_eq_eq_eq_not, Bool.not_true, beq_eq_false_iff_ne, ne_eq]
  constructor
  · rintro ⟨st, hst, s1, hs1, s2, ⟨hs2, hne⟩, rfl⟩
    exact ⟨st, hst, s1, hs1, s2, hs2, hne, rfl⟩
  · rintro ⟨st, hst, s1, hs1, s2, hs2, hne, rfl⟩
    exact ⟨st, hst, s1, hs1, s2, ⟨hs2, hne⟩, rfl⟩

/-- C6: after the conversion, the transfer set contains a directed Transfer
with layover TRANSFER_COST for every ordered pair of distinct stops of each
station, and every transfer stays within one station. -/
theorem gtfs_to_pyraptor_timetable_transfers (g : GtfsTimetable) (icd : Bool)
    (tt : Timetable) (h : gtfs_to_pyraptor_timetable g icd = some tt) :
    (∀ st ∈ tt.stations, ∀ s1 ∈ stationStops tt.stops st,
        ∀ s2 ∈ stationStops tt.stops st, s1 ≠ s2 →
          ({ from_stop := s1, to_stop := s2, layovertime := TRANSFER_COST } : Transfer)
            ∈ tt.transfers) ∧
    (∀ tr ∈ tt.transfers, tr.layovertime = TRANSFER_COST ∧
        tr.from_stop.station = tr.to_stop.station) := by
  simp only [gtfs_to_pyraptor_timetable] at h
  split at h
  · simp at h
  rename_i stops hbs
  split at h
  · simp at h
  rename_i tat hbt
  simp only [Option.some.injEq] at h
  subst h
  constructor
  · intro st hst s1 hs1 s2 hs2 hne
    exact (mem_buildTransfers _ _ _).2 ⟨st, hst, s1, hs1, s2, hs2, hne, rfl⟩
  · intro tr htr
    obtain ⟨st, _, s1, hs1, s2, hs2, _, rfl⟩ := (mem_buildTransfers _ _ _).1 htr
    refine ⟨rfl, ?_⟩
    rw [((mem_stationStops _ _ _).1 hs1).2, ((mem_stationStops _ _ _).1 hs2).2]

/-- Witness for `gtfs_to_pyraptor_timetable_transfers`: the example feed's
two platforms of the Central station get the forward transfer. -/
theorem gtfs_to_pyraptor_timetable_transfers_witness :
    ({ from_stop := stopP1ex, to_stop := stopP2ex, layovertime := TRANSFER_COST } :
      Transfer) ∈ ttEx.transfers :=
  (gtfs_to_pyraptor_timetable_transfers gtfsEx false ttEx (by rfl)).1
    stCentral (by decide) stopP1ex (by decide) stopP2ex (by decide) (by decide)

/-- C1 (the code evaluated at the failing input): on a timetable whose only
origin departure is at second 100, the driver's candidate list is [100] —
`run_range_mcraptor` receives no departure window and filters nothing — while
the spec's windowed candidate set for the window [0, 50] is empty. -/
theorem potential_dep_secs_ignores_window :
    potential_dep_secs ttO ("O") = [100] ∧
    spec_candidate_deps ttO ("O") 0 50 = [] :=
  ⟨by decide, by decide⟩

/-- C7 counterexample: on a timetable with no departures at the origin the
candidate set is empty, yet the range query reports no error and returns the
full fallback map of empty journey lists. -/
theorem run_range_mcraptor_empty_counterexample :
    potential_dep_secs ttAB ("A") = [] ∧
    run_range_mcraptor_exc dummyApi ttAB ("A") 5 =
      Except.ok [(("B"), ([] : List Unit))] :=
  ⟨by decide, by rfl⟩

/-- C7 (amended): when the candidate departure set is empty,
run_range_mcraptor raises no error and returns the map assigning every
destination station the empty journey list. -/
theorem run_range_mcraptor_empty_deps {Bag Leg J : Type} [DecidableEq J]
    (api : SearchApi Bag Leg J) (tt : Timetable) (origin : String) (mr : Nat)
    (h : potential_dep_secs tt origin = []) :
    run_range_mcraptor_exc api tt origin mr =
      Except.ok ((destination_stops tt origin).map fun p => (p.1, ([] : List J))) := by
  unfold run_range_mcraptor_exc run_range_mcraptor
  rw [h]
  simp [keep_unique_journeys, List.map_map, Function.comp]

/-- Witness for `run_range_mcraptor_empty_deps` with origin station B of the
tripless timetable. -/
theorem run_range_mcraptor_empty_deps_witness :
    run_range_mcraptor_exc dummyApi ttAB ("B") 5 =
      Except.ok [(("A"), ([] : List Unit))] := by
  rw [run_range_mcraptor_empty_deps dummyApi ttAB ("B") 5 (by decide)]
  rfl

/-- The departure loop, started on any state, is the fold of the
destination-accumulation step over the seeded search results, the seed
threading being exactly that of `seededSearchResults`. -/
theorem rangeLoop_eq_seeded {Bag Leg J : Type} (api : SearchApi Bag Leg J)
    (tt : Timetable) (fs : List Stop) (dsts : List (String × List Stop))
    (mr : Nat) :
    ∀ (deps : List Nat) (s : List (String × List J) × Option Bag),
      (deps.foldl (rangeStep api tt fs dsts mr) s).1 =
        (seededSearchResults api tt fs mr deps s.2).foldl
          (accumDest api fs dsts) s.1 := by
  intro deps
  induction deps with
  | nil => intro s; rfl
  | cons d ds ih =>
    intro s
    rw [List.foldl_cons, ih]
    cases s with
    | mk acc seed =>
      cases seed <;> simp [rangeStep, seededSearchResults, List.foldl_cons]

/-- C2: run_range_mcraptor is the per-destination accumulation over the
seeded chain of searches — the first search unseeded (seed `none`), each
subsequent search seeded with the immediately preceding search's final-round
bag `bag_round_stop[actual_rounds]` (the shallow copy of the source is the
identity on the embedding's immutable bags) — followed by the dedup pass. -/
theorem run_range_mcraptor_seeding {Bag Leg J : Type} [DecidableEq J]
    (api : SearchApi Bag Leg J) (tt : Timetable) (origin_station : String)
    (max_rounds : Nat) :
    run_range_mcraptor api tt origin_station max_rounds =
      ((seededSearchResults api tt (get_stops tt origin_station) max_rounds
          (potential_dep_secs tt origin_station) none).foldl
        (accumDest api (get_stops tt origin_station)
          (destination_stops tt origin_station))
        ((destination_stops tt origin_station).map fun p => (p.1, ([] : List J)))).map
        fun p => (p.1, keep_unique_journeys p.2) := by
  simp only [run_range_mcraptor]
  rw [rangeLoop_eq_seeded]

/-- `firstOccurAux` only consults the membership of its seen set. -/
theorem firstOccurAux_congr {J : Type} [DecidableEq J]
    (l : List J) :
    ∀ (s1 s2 : List J), (∀ a, a ∈ s1 ↔ a ∈ s2) →
      firstOccurAux s1 l = firstOccurAux s2 l := by
  induction l with
  | nil => intro s1 s2 _; rfl
  | cons x l ih =>
    intro s1 s2 hmem
    simp only [firstOccurAux]
    by_cases hx : x ∈ s1
    · rw [if_pos hx, if_pos ((hmem x).1 hx), ih s1 s2 hmem]
    · rw [if_neg hx, if_neg (fun hc => hx ((hmem x).2 hc))]
      refine congrArg _ (ih _ _ fun a => ?_)
      simp only [List.mem_cons, hmem a]

/-- The dedup fold of `keep_unique_journeys`, started from any
accumulator, appends exactly the not-yet-seen first occurrences. -/
theorem keep_unique_go {J : Type} [DecidableEq J] (l : List J) :
    ∀ acc : List J,
      l.foldl (fun uniq j => if j ∈ uniq then uniq else uniq ++ [j]) acc =
        acc ++ firstOccurAux acc l := by
  induction l with
  | nil => intro acc; simp [firstOccurAux]
  | cons x l ih =>
    intro acc
    rw [List.foldl_cons]
    by_cases hx : x ∈ acc
    · rw [if_pos hx, ih acc]
      simp only [firstOccurAux, if_pos hx]
    · rw [if_neg hx, ih (acc ++ [x])]
      simp only [firstOccurAux, if_neg hx]
      rw [List.append_assoc, List.singleton_append]
      refine congrArg _ (congrArg _ (firstOccurAux_congr l _ _ fun a => ?_))
      simp [List.mem_append, or_comm]

/-- The source's dedup equals first-occurrence dedup. -/
theorem keep_unique_eq_firstOccur {J : Type} [DecidableEq J] (l : List J) :
    keep_unique_journeys l = firstOccur l := by
  unfold keep_unique_journeys firstOccur
  rw [keep_unique_go]
  rfl

/-- First-occurrence dedup yields no duplicates and nothing from the seen
set. -/
theorem firstOccurAux_nodup {J : Type} [DecidableEq J] (l : List J) :
    ∀ seen : List J, (firstOccurAux seen l).Nodup ∧
      ∀ x ∈ firstOccurAux seen l, x ∉ seen := by
  induction l with
  | nil => intro seen; simp [firstOccurAux]
  | cons x l ih =>
    intro seen
    simp only [firstOccurAux]
    by_cases hx : x ∈ seen
    · rw [if_pos hx]; exact ih seen
    · rw [if_neg hx]
      obtain ⟨hnd, hnot⟩ := ih (x :: seen)
      refine ⟨List.nodup_cons.2 ⟨fun hc => ?_, hnd⟩, ?_⟩
      · exact (hnot x hc) (List.mem_cons_self x seen)
      · intro y hy
        rcases List.mem_cons.mp hy with rfl | hy'
        · exact hx
        · exact fun hc => (hnot y hy') (List.mem_cons_of_mem x hc)

/-- C3: every journey list run_range_mcraptor returns is duplicate-free,
and the final dedup pass is exactly first-occurrence dedup: it keeps only
the first occurrence of each journey (under journey equality), in
accumulation order. -/
theorem run_range_mcraptor_no_duplicates {Bag Leg J : Type} [DecidableEq J]
    (api : SearchApi Bag Leg J) (tt : Timetable) (origin_station : String)
    (max_rounds : Nat) (l : List J) :
    (∀ p ∈ run_range_mcraptor api tt origin_station max_rounds, p.2.Nodup) ∧
    keep_unique_journeys l = firstOccur l ∧ (firstOccur l).Nodup := by
  refine ⟨?_, keep_unique_eq_firstOccur l, (firstOccurAux_nodup l []).1⟩
  intro p hp
  simp only [run_range_mcraptor, List.mem_map] at hp
  obtain ⟨q, _, rfl⟩ := hp
  rw [keep_unique_eq_firstOccur]
  exact (firstOccurAux_nodup q.2 []).1

/-- Witness for `run_range_mcraptor_no_duplicates`: the empty journey list
of the tripless query is duplicate-free, and dedup on a three-element list
with a repeat keeps the first occurrence only. -/
theorem run_range_mcraptor_no_duplicates_witness :
    ([] : List Unit).Nodup ∧
    keep_unique_journeys [(), (), ()] = firstOccur [(), (), ()] :=
  ⟨(run_range_mcraptor_no_duplicates dummyApi ttAB ("A") 5 [(), (), ()]).1
      (("B"), []) (by decide),
    (run_range_mcraptor_no_duplicates dummyApi ttAB ("A") 5 [(), (), ()]).2.1⟩

/-- The departure loop's transition system is deterministic: from one
initial state over one departure list there is exactly one final state. -/
theorem rangeLoopRel_det {Bag Leg J : Type} (api : SearchApi Bag Leg J)
    (tt : Timetable) (fs : List Stop) (dsts : List (String × List Stop))
    (mr : Nat) :
    ∀ (deps : List Nat) (s t1 t2 : List (String × List J) × Option Bag),
      RangeLoopRel api tt fs dsts mr deps s t1 →
      RangeLoopRel api tt fs dsts mr deps s t2 → t1 = t2 := by
  intro deps
  induction deps with
  | nil =>
    intro s t1 t2 h1 h2
    cases h1
    cases h2
    rfl
  | cons d ds ih =>
    intro s t1 t2 h1 h2
    cases h1 with
    | step _ _ _ _ h1' =>
      cases h2 with
      | step _ _ _ _ h2' => exact ih _ _ _ h1' h2'

/-- C8: run_range_mcraptor is deterministic — two executions on the same
timetable, origin station argument and round budget produce equal
per-destination journey maps. -/
theorem run_range_mcraptor_deterministic {Bag Leg J : Type} [DecidableEq J]
    (api : SearchApi Bag Leg J) (tt : Timetable) (origin_station : String)
    (max_rounds : Nat) (r1 r2 : List (String × List J))
    (h1 : RangeQueryRuns api tt origin_station max_rounds r1)
    (h2 : RangeQueryRuns api tt origin_station max_rounds r2) : r1 = r2 := by
  cases h1 with
  | intro fin1 hl1 =>
    cases h2 with
    | intro fin2 hl2 =>
      rw [rangeLoopRel_det api tt _ _ max_rounds _ _ fin1 fin2 hl1 hl2]

/-- Witness for `run_range_mcraptor_deterministic`: two executions of the
tripless query produce the same map. -/
theorem run_range_mcraptor_deterministic_witness :
    ([(("B"), ([] : List Unit))] : List (String × List Unit)) = [(("B"), [])] :=
  run_range_mcraptor_deterministic dummyApi ttAB ("A") 5 _ _
    (RangeQueryRuns.intro ([(("B"), ([] : List Unit))], none)
      (RangeLoopRel.done _))
    (RangeQueryRuns.intro ([(("B"), ([] : List Unit))], none)
      (RangeLoopRel.done _))

/-- `dextend` never changes the key list. -/
theorem keys_dextend {α : Type} (k : String) (js : List α)
    (d : List (String × List α)) :
    (dextend k js d).map Prod.fst = d.map Prod.fst := by
  induction d with
  | nil => rfl
  | cons kv rest ih =>
    simp only [dextend]
    split_ifs with h
    · simp [h]
    · simp [ih]

/-- Mapping the values of a dict leaves the key list unchanged. -/
theorem keys_map_values {α β : Type} (g : α → β) (d : List (String × α)) :
    (d.map (fun p => (p.1, g p.2))).map Prod.fst = d.map Prod.fst := by
  simp [List.map_map, Function.comp]

/-- The destination-accumulation step never changes the key list. -/
theorem keys_accumDest {Bag Leg J : Type} (api : SearchApi Bag Leg J)
    (fs : List Stop) (dsts : List (String × List Stop)) :
    ∀ (acc : List (String × List J)) (r : (Nat → Bag) × Nat),
      (accumDest api fs dsts acc r).map Prod.fst = acc.map Prod.fst := by
  unfold accumDest
  induction dsts with
  | nil => intro acc r; rfl
  | cons p rest ih =>
    intro acc r
    rw [List.foldl_cons, ih]
    split_ifs with h
    · exact keys_dextend _ _ _
    · rfl

/-- The departure loop never changes the key list of the accumulators. -/
theorem keys_rangeLoop {Bag Leg J : Type} (api : SearchApi Bag Leg J)
    (tt : Timetable) (fs : List Stop) (dsts : List (String × List Stop))
    (mr : Nat) :
    ∀ (deps : List Nat) (s : List (String × List J) × Option Bag),
      ((deps.foldl (rangeStep api tt fs dsts mr) s).1).map Prod.fst =
        s.1.map Prod.fst := by
  intro deps
  induction deps with
  | nil => intro s; rfl
  | cons d ds ih =>
    intro s
    rw [List.foldl_cons, ih]
    exact keys_accumDest _ _ _ _ _

/-- Key membership after a dict insert. -/
theorem mem_keys_dinsert {α : Type} (k k' : String) (v : α)
    (d : List (String × α)) :
    k' ∈ (dinsert k v d).map Prod.fst ↔ k' = k ∨ k' ∈ d.map Prod.fst := by
  induction d with
  | nil => simp [dinsert]
  | cons kv rest ih =>
    simp only [dinsert]
    split_ifs with h
    · simp only [List.map_cons, List.mem_cons, h]
      tauto
    · simp only [List.map_cons, List.mem_cons, ih]
      tauto

/-- A dict insert preserves key uniqueness. -/
theorem nodup_keys_dinsert {α : Type} (k : String) (v : α)
    (d : List (String × α)) (h : (d.map Prod.fst).Nodup) :
    ((dinsert k v d).map Prod.fst).Nodup := by
  induction d with
  | nil => simp [dinsert]
  | cons kv rest ih =>
    simp only [List.map_cons, List.nodup_cons] at h
    simp only [dinsert]
    split_ifs with hk
    · simp only [List.map_cons, List.nodup_cons]
      exact ⟨hk ▸ h.1, h.2⟩
    · simp only [List.map_cons, List.nodup_cons]
      refine ⟨?_, ih h.2⟩
      intro hc
      rcases (mem_keys_dinsert _ _ _ _).1 hc with rfl | hc'
      · exact hk rfl
      · exact h.1 hc'

/-- Key membership in the dict built by the destination comprehension. -/
theorem mem_keys_dinsert_foldl (sts : List Station) (f : Station → List Stop) :
    ∀ (d0 : List (String × List Stop)) (k : String),
      k ∈ ((sts.foldl (fun d st => dinsert st.name (f st) d) d0).map Prod.fst) ↔
        k ∈ sts.map Station.name ∨ k ∈ d0.map Prod.fst := by
  induction sts with
  | nil => intro d0 k; simp
  | cons st rest ih =>
    intro d0 k
    rw [List.foldl_cons, ih]
    simp only [List.map_cons, List.mem_cons, mem_keys_dinsert]
    tauto

/-- The destination comprehension keeps keys unique. -/
theorem nodup_keys_dinsert_foldl (sts : List Station) (f : Station → List Stop) :
    ∀ (d0 : List (String × List Stop)), (d0.map Prod.fst).Nodup →
      ((sts.foldl (fun d st => dinsert st.name (f st) d) d0).map Prod.fst).Nodup := by
  induction sts with
  | nil => intro d0 h; exact h
  | cons st rest ih =>
    intro d0 h
    rw [List.foldl_cons]
    exact ih _ (nodup_keys_dinsert _ _ _ h)

/-- Keys surviving a pop were keys before. -/
theorem keys_dpop_subset {α : Type} (k k' : String) (d : List (String × α)) :
    k' ∈ (dpop k d).map Prod.fst → k' ∈ d.map Prod.fst := by
  induction d with
  | nil => simp [dpop]
  | cons kv rest ih =>
    simp only [dpop]
    split_ifs with h
    · intro hmem; exact List.mem_cons_of_mem _ hmem
    · simp only [List.map_cons, List.mem_cons]
      rintro (rfl | hmem)
      · exact Or.inl rfl
      · exact Or.inr (ih hmem)

/-- A pop preserves key uniqueness. -/
theorem nodup_keys_dpop {α : Type} (k : String) (d : List (String × α))
    (h : (d.map Prod.fst).Nodup) : ((dpop k d).map Prod.fst).Nodup := by
  induction d with
  | nil => simp [dpop]
  | cons kv rest ih =>
    simp only [List.map_cons, List.nodup_cons] at h
    simp only [dpop]
    split_ifs with hk
    · exact h.2
    · simp only [List.map_cons, List.nodup_cons]
      exact ⟨fun hc => h.1 (keys_dpop_subset _ _ _ hc), ih h.2⟩

/-- Key membership after a pop, on a dict with unique keys: the popped key
is gone, everything else stays. -/
theorem mem_keys_dpop {α : Type} (k k' : String) (d : List (String × α))
    (hnd : (d.map Prod.fst).Nodup) :
    k' ∈ (dpop k d).map Prod.fst ↔ k' ∈ d.map Prod.fst ∧ k' ≠ k := by
  induction d with
  | nil => simp [dpop]
  | cons kv rest ih =>
    simp only [List.map_cons, List.nodup_cons] at hnd
    simp only [dpop]
    split_ifs with h
    · subst h
      simp only [List.map_cons, List.mem_cons]
      constructor
      · intro hmem
        refine ⟨Or.inr hmem, fun he => hnd.1 (he ▸ hmem)⟩
      · rintro ⟨rfl | hmem, hne⟩
        · exact absurd rfl hne
        · exact hmem
    · simp only [List.map_cons, List.mem_cons, ih hnd.2]
      constructor
      · rintro (rfl | ⟨hmem, hne⟩)
        · exact ⟨Or.inl rfl, fun he => h he⟩
        · exact ⟨Or.inr hmem, hne⟩
      · rintro ⟨rfl | hmem, hne⟩
        · exact Or.inl rfl
        · exact Or.inr ⟨hmem, hne⟩

/-- With unique keys, a successful lookup pins down the value of every
entry with that key. -/
theorem dlookup_unique {α : Type} (name : String) (d : List (String × α))
    (v : α) (hnd : (d.map Prod.fst).Nodup) (h : dlookup name d = some v) :
    ∀ p ∈ d, p.1 = name → p.2 = v := by
  induction d with
  | nil => simp
  | cons kv rest ih =>
    simp only [List.map_cons, List.nodup_cons] at hnd
    simp only [dlookup] at h
    intro p hp hpname
    rcases List.mem_cons.mp hp with rfl | hp'
    · rw [if_pos hpname] at h
      exact Option.some.injEq _ _ ▸ h
    · by_cases hk : kv.1 = name
      · exfalso
        apply hnd.1
        rw [hk, ← hpname]
        exact List.mem_map.2 ⟨p, hp', rfl⟩
      · rw [if_neg hk] at h
        exact ih hnd.2 h p hp' hpname

/-- Extending at a different key leaves a lookup unchanged. -/
theorem dlookup_dextend_ne {α : Type} (k k' : String) (js : List α)
    (d : List (String × List α)) (hne : k ≠ k') :
    dlookup k' (dextend k js d) = dlookup k' d := by
  induction d with
  | nil => rfl
  | cons kv rest ih =>
    simp only [dextend]
    split_ifs with h
    · simp only [dlookup]
      rw [if_neg (h ▸ hne : ¬ kv.1 = k'), if_neg (h ▸ hne : ¬ kv.1 = k')]
    · simp only [dlookup]
      split_ifs with h2
      · rfl
      · exact ih

/-- Looking a key up through a value map. -/
theorem dlookup_map_values {α β : Type} (g : α → β) (k : String)
    (d : List (String × α)) :
    dlookup k (d.map fun p => (p.1, g p.2)) = (dlookup k d).map g := by
  induction d with
  | nil => rfl
  | cons kv rest ih =>
    simp only [List.map_cons, dlookup]
    split_ifs with h
    · rfl
    · exact ih

/-- When every destination entry keyed `name` carries stops on which the
search finds no legs, the accumulation step leaves `name`'s journeys
untouched. -/
theorem dlookup_accumDest {Bag Leg J : Type} (api : SearchApi Bag Leg J)
    (fs : List Stop) (name : String) (ts : List Stop) :
    ∀ (dsts : List (String × List Stop)) (acc : List (String × List J))
      (r : (Nat → Bag) × Nat),
      (∀ p ∈ dsts, p.1 = name → p.2 = ts) →
      (∀ b, api.bestLegs ts b = []) →
      dlookup name (accumDest api fs dsts acc r) = dlookup name acc := by
  intro dsts
  induction dsts with
  | nil => intro acc r _ _; rfl
  | cons p rest ih =>
    intro acc r hts hb
    show dlookup name
      (accumDest api fs rest
        (if (api.bestLegs p.2 (r.1 r.2)).length ≠ 0 then
          dextend p.1 (api.reconstruct fs (api.bestLegs p.2 (r.1 r.2)) r.1 r.2) acc
        else acc) r) = dlookup name acc
    rw [ih _ r (fun q hq hqn => hts q (List.mem_cons_of_mem p hq) hqn) hb]
    by_cases hp : p.1 = name
    · rw [hts p (List.mem_cons_self p rest) hp, hb]
      simp
    · split_ifs with hg
      · exact dlookup_dextend_ne _ _ _ _ hp
      · rfl

/-- The departure loop leaves `name`'s journeys untouched when the search
never finds legs to its stops. -/
theorem dlookup_rangeLoop {Bag Leg J : Type} (api : SearchApi Bag Leg J)
    (tt : Timetable) (fs : List Stop) (dsts : List (String × List Stop))
    (mr : Nat) (name : String) (ts : List Stop)
    (hts : ∀ p ∈ dsts, p.1 = name → p.2 = ts)
    (hb : ∀ b, api.bestLegs ts b = []) :
    ∀ (deps : List Nat) (s : List (String × List J) × Option Bag),
      dlookup name ((deps.foldl (rangeStep api tt fs dsts mr) s).1) =
        dlookup name s.1 := by
  intro deps
  induction deps with
  | nil => intro s; rfl
  | cons d ds ih =>
    intro s
    rw [List.foldl_cons, ih]
    exact dlookup_accumDest api fs name ts dsts s.1 _ hts hb

/-- The initial accumulator dict has the destination keys. -/
theorem keys_map_nil {J : Type} (d : List (String × List Stop)) :
    ((d.map fun p => (p.1, ([] : List J))).map Prod.fst) = d.map Prod.fst :=
  keys_map_values (fun _ => ([] : List J)) d

/-- Looking a key up in the initial accumulator dict. -/
theorem dlookup_map_nil {J : Type} (k : String) (d : List (String × List Stop)) :
    dlookup k (d.map fun p => (p.1, ([] : List J))) =
      (dlookup k d).map (fun _ => ([] : List J)) :=
  dlookup_map_values (fun _ => ([] : List J)) k d

/-- C9: the key set of the map run_range_mcraptor returns is exactly the set
of display names of the timetable's stations with any key equal to the
origin_station argument removed; and a destination to which the search never
finds legs keeps its key, with the empty journey list as value. -/
theorem run_range_mcraptor_keys {Bag Leg J : Type} [DecidableEq J]
    (api : SearchApi Bag Leg J) (tt : Timetable) (origin_station : String)
    (max_rounds : Nat) (name : String) (ts : List Stop) :
    ((run_range_mcraptor api tt origin_station max_rounds).map Prod.fst).toFinset =
      ((tt.stations.map Station.name).toFinset).erase origin_station ∧
    (dlookup name (destination_stops tt origin_station) = some ts →
      (∀ b, api.bestLegs ts b = []) →
      dlookup name (run_range_mcraptor api tt origin_station max_rounds) =
        some []) := by
  have hnodF : (((tt.stations.foldl
      (fun d st => dinsert st.name (get_stops tt st.id) d) [])).map Prod.fst).Nodup :=
    nodup_keys_dinsert_foldl _ _ [] (by simp)
  have hkeys : (run_range_mcraptor api tt origin_station max_rounds).map Prod.fst =
      (destination_stops tt origin_station).map Prod.fst := by
    simp only [run_range_mcraptor]
    rw [keys_map_values, keys_rangeLoop]
    dsimp only
    rw [keys_map_nil]
  constructor
  · rw [hkeys]
    unfold destination_stops
    ext k
    rw [List.mem_toFinset, mem_keys_dpop _ _ _ hnodF, mem_keys_dinsert_foldl]
    simp only [List.map_nil, List.not_mem_nil, or_false, Finset.mem_erase,
      List.mem_toFinset]
    tauto
  · intro hl hb
    have hnodD : ((destination_stops tt origin_station).map Prod.fst).Nodup :=
      nodup_keys_dpop _ _ hnodF
    have hts := dlookup_unique name _ ts hnodD hl
    simp only [run_range_mcraptor]
    rw [dlookup_map_values keep_unique_journeys,
      dlookup_rangeLoop api tt _ _ max_rounds name ts hts hb]
    dsimp only
    rw [dlookup_map_nil, hl]
    rfl

/-- Witness for `run_range_mcraptor_keys`: in the tripless query from A, the
destination B is present with the empty journey list. -/
theorem run_range_mcraptor_keys_witness :
    dlookup ("B") (run_range_mcraptor dummyApi ttAB ("A") 5) =
      some ([] : List Unit) :=
  (run_range_mcraptor_keys dummyApi ttAB ("A") 5 ("B")
      [{ id := "B1", name := "B platform", station := stationB }]).2
    (by decide) (fun _ => rfl)

/-- Code-point comparison is irreflexive. -/
theorem strLtb_irrefl : ∀ a : List Char, strLtb a a = false := by
  intro a
  induction a with
  | nil => rfl
  | cons c cs ih => simp [strLtb, ih]

/-- Code-point comparison is asymmetric. -/
theorem strLtb_asymm : ∀ a b : List Char, strLtb a b = true → strLtb b a = false := by
  intro a
  induction a with
  | nil =>
    intro b h
    cases b with
    | nil => simp [strLtb] at h
    | cons d ds => simp [strLtb]
  | cons c cs ih =>
    intro b h
    cases b with
    | nil => simp [strLtb] at h
    | cons d ds =>
      simp only [strLtb] at h ⊢
      by_cases h1 : c.toNat < d.toNat
      · rw [if_neg (by omega : ¬ d.toNat < c.toNat), if_pos h1]
      · rw [if_neg h1] at h
        by_cases h2 : d.toNat < c.toNat
        · rw [if_pos h2] at h
          exact absurd h (by simp)
        · rw [if_neg h2] at h
          rw [if_neg h2, if_neg h1]
          exact ih ds h

/-- Two code-point sequences neither of which is strictly below the other
are equal. -/
theorem strLtb_connex : ∀ a b : List Char,
    strLtb a b = false → strLtb b a = false → a = b := by
  intro a
  induction a with
  | nil =>
    intro b h1 _
    cases b with
    | nil => rfl
    | cons d ds => simp [strLtb] at h1
  | cons c cs ih =>
    intro b h1 h2
    cases b with
    | nil => simp [strLtb] at h2
    | cons d ds =>
      simp only [strLtb] at h1 h2
      by_cases hcd : c.toNat < d.toNat
      · rw [if_pos hcd] at h1
        exact absurd h1 (by simp)
      · rw [if_neg hcd] at h1
        by_cases hdc : d.toNat < c.toNat
        · rw [if_pos hdc] at h2
          exact absurd h2 (by simp)
        · rw [if_neg hdc] at h1
          rw [if_neg hdc, if_neg hcd] at h2
          have hc : c = d := by
            have hn : c.toNat = d.toNat := by omega
            have hv : c.val = d.val := by
              unfold Char.toNat at hn
              exact UInt32.toNat.inj hn
            exact Char.eq_of_val_eq hv
          rw [hc, ih ds h1 h2]

/-- Code-point comparison is transitive. -/
theorem strLtb_trans : ∀ a b c : List Char,
    strLtb a b = true → strLtb b c = true → strLtb a c = true := by
  intro a
  induction a with
  | nil =>
    intro b c h1 h2
    cases c with
    | nil =>
      exfalso
      cases b with
      | nil => simp [strLtb] at h1
      | cons y ys => simp [strLtb] at h2
    | cons z zs => simp [strLtb]
  | cons x xs ih =>
    intro b c h1 h2
    cases b with
    | nil => simp [strLtb] at h1
    | cons y ys =>
      cases c with
      | nil => simp [strLtb] at h2
      | cons z zs =>
        simp only [strLtb] at h1 h2 ⊢
        by_cases hxy : x.toNat < y.toNat
        · by_cases hyz : y.toNat < z.toNat
          · rw [if_pos (by omega : x.toNat < z.toNat)]
          · rw [if_neg hyz] at h2
            by_cases hzy : z.toNat < y.toNat
            · rw [if_pos hzy] at h2
              exact absurd h2 (by simp)
            · rw [if_pos (by omega : x.toNat < z.toNat)]
        · rw [if_neg hxy] at h1
          by_cases hyx : y.toNat < x.toNat
          · rw [if_pos hyx] at h1
            exact absurd h1 (by simp)
          · rw [if_neg hyx] at h1
            by_cases hyz : y.toNat < z.toNat
            · rw [if_pos (by omega : x.toNat < z.toNat)]
            · rw [if_neg hyz] at h2
              by_cases hzy : z.toNat < y.toNat
              · rw [if_pos hzy] at h2
                exact absurd h2 (by simp)
              · rw [if_neg hzy] at h2
                rw [if_neg (by omega : ¬ x.toNat < z.toNat),
                  if_neg (by omega : ¬ z.toNat < x.toNat)]
                exact ih ys zs h1 h2

/-- Strings whose code-point sequences agree are equal. -/
theorem str_data_eq (s t : String) (h : s.data = t.data) : s = t := by
  cases s
  cases t
  simp_all

/-- The key comparison spelled out as a proposition: lexicographic on the
three string components. -/
theorem keyLtb_iff (a b : String × String × String) :
    keyLtb a b = true ↔
      strLtb a.1.data b.1.data = true ∨
        (a.1 = b.1 ∧ (strLtb a.2.1.data b.2.1.data = true ∨
          (a.2.1 = b.2.1 ∧ strLtb a.2.2.data b.2.2.data = true))) := by
  simp [keyLtb, Bool.or_eq_true, Bool.and_eq_true, beq_iff_eq, and_or_left]

/-- The key comparison is asymmetric. -/
theorem keyLtb_asymm (a b : String × String × String)
    (h : keyLtb a b = true) : keyLtb b a = false := by
  cases hres : keyLtb b a with
  | false => rfl
  | true =>
    exfalso
    rw [keyLtb_iff] at h hres
    rcases h with h1 | ⟨e1, h2 | ⟨e2, h3⟩⟩ <;>
      rcases hres with g1 | ⟨f1, g2 | ⟨f2, g3⟩⟩
    · rw [strLtb_asymm _ _ h1] at g1; exact absurd g1 (by simp)
    · rw [f1] at h1; rw [strLtb_irrefl] at h1; exact absurd h1 (by simp)
    · rw [f1] at h1; rw [strLtb_irrefl] at h1; exact absurd h1 (by simp)
    · rw [e1] at g1; rw [strLtb_irrefl] at g1; exact absurd g1 (by simp)
    · rw [strLtb_asymm _ _ h2] at g2; exact absurd g2 (by simp)
    · rw [f2] at h2; rw [strLtb_irrefl] at h2; exact absurd h2 (by simp)
    · rw [e1] at g1; rw [strLtb_irrefl] at g1; exact absurd g1 (by simp)
    · rw [e2] at g2; rw [strLtb_irrefl] at g2; exact absurd g2 (by simp)
    · rw [strLtb_asymm _ _ h3] at g3; exact absurd g3 (by simp)

/-- Keys neither of which compares strictly below the other are equal. -/
theorem keyLtb_connex (a b : String × String × String)
    (h1 : keyLtb a b = false) (h2 : keyLtb b a = false) : a = b := by
  obtain ⟨a1, a2, a3⟩ := a
  obtain ⟨b1, b2, b3⟩ := b
  have e1 : a1 = b1 := by
    apply str_data_eq
    apply strLtb_connex
    · cases hs : strLtb a1.data b1.data
      · rfl
      · exfalso; simp [keyLtb, hs] at h1
    · cases hs : strLtb b1.data a1.data
      · rfl
      · exfalso; simp [keyLtb, hs] at h2
  subst e1
  simp only [keyLtb, strLtb_irrefl, Bool.false_or, beq_self_eq_true,
    Bool.true_and] at h1 h2
  have e2 : a2 = b2 := by
    apply str_data_eq
    apply strLtb_connex
    · cases hs : strLtb a2.data b2.data
      · rfl
      · exfalso; simp [hs] at h1
    · cases hs : strLtb b2.data a2.data
      · rfl
      · exfalso; simp [hs] at h2
  subst e2
  simp only [strLtb_irrefl, Bool.false_or, beq_self_eq_true, Bool.true_and] at h1 h2
  have e3 : a3 = b3 := str_data_eq _ _ (strLtb_connex _ _ h1 h2)
  rw [e3]

/-- The key comparison is transitive. -/
theorem keyLtb_trans (a b c : String × String × String)
    (h1 : keyLtb a b = true) (h2 : keyLtb b c = true) : keyLtb a c = true := by
  rw [keyLtb_iff] at h1 h2 ⊢
  rcases h1 with h1 | ⟨e1, h1 | ⟨e1', h1⟩⟩ <;>
    rcases h2 with h2 | ⟨e2, h2 | ⟨e2', h2⟩⟩
  · exact Or.inl (strLtb_trans _ _ _ h1 h2)
  · exact Or.inl (by rw [← e2]; exact h1)
  · exact Or.inl (by rw [← e2]; exact h1)
  · exact Or.inl (by rw [e1]; exact h2)
  · exact Or.inr ⟨e1.trans e2, Or.inl (strLtb_trans _ _ _ h1 h2)⟩
  · exact Or.inr ⟨e1.trans e2, Or.inl (by rw [← e2']; exact h1)⟩
  · exact Or.inl (by rw [e1]; exact h2)
  · exact Or.inr ⟨e1.trans e2, Or.inl (by rw [e1']; exact h2)⟩
  · exact Or.inr ⟨e1.trans e2, Or.inr ⟨e1'.trans e2', strLtb_trans _ _ _ h1 h2⟩⟩

instance : IsTotal LegDict legLe := by
  constructor
  intro a b
  unfold legLe
  cases h : keyLtb (legKey b) (legKey a) with
  | false => exact Or.inl rfl
  | true => exact Or.inr (keyLtb_asymm _ _ h)

instance : IsTrans LegDict legLe := by
  constructor
  intro a b c hab hbc
  unfold legLe at hab hbc ⊢
  cases h : keyLtb (legKey c) (legKey a) with
  | false => rfl
  | true =>
    exfalso
    cases hcb : keyLtb (legKey b) (legKey c) with
    | true =>
      have htr := keyLtb_trans _ _ _ hcb h
      rw [hab] at htr
      exact absurd htr (by simp)
    | false =>
      have e := keyLtb_connex _ _ hcb hbc
      rw [← e] at h
      rw [hab] at h
      exact absurd h (by simp)

instance : IsAntisymm LegDict legLt := by
  constructor
  intro a b h1 h2
  exfalso
  unfold legLt at h1 h2
  rw [keyLtb_asymm _ _ h1] at h2
  exact absurd h2 (by simp)

/-- The stable sort permutes the legs. -/
theorem sortLegs_perm (l : List LegDict) : (sortLegs l).Perm l :=
  List.perm_insertionSort _ l

/-- The stable sort orders the legs by key. -/
theorem sortLegs_sorted (l : List LegDict) : List.Sorted legLe (sortLegs l) :=
  List.sorted_insertionSort _ l

/-- A key-sorted leg list with pairwise-distinct keys is strictly sorted. -/
theorem sorted_strict_of_nodup_keys (l : List LegDict)
    (hs : List.Sorted legLe l) (hnd : (l.map legKey).Nodup) :
    List.Sorted legLt l := by
  have hp : l.Pairwise fun a b => legKey a ≠ legKey b := by
    rw [List.Nodup, List.pairwise_map] at hnd
    exact hnd
  refine (List.Pairwise.and hs hp).imp ?_
  rintro a b ⟨hle, hne⟩
  unfold legLe at hle
  unfold legLt
  cases h : keyLtb (legKey a) (legKey b) with
  | true => rfl
  | false => exact absurd (keyLtb_connex _ _ h hle) hne

/-- Sorting two permutations of one leg list with pairwise-distinct keys
produces the same list. -/
theorem sortLegs_eq_of_perm (l l' : List LegDict) (hperm : l'.Perm l)
    (hnd : (l.map legKey).Nodup) : sortLegs l' = sortLegs l := by
  have h1 : (sortLegs l').Perm (sortLegs l) :=
    (sortLegs_perm l').trans (hperm.trans (sortLegs_perm l).symm)
  have hnd1 : ((sortLegs l).map legKey).Nodup :=
    (((sortLegs_perm l).map legKey).nodup_iff).mpr hnd
  have hnd2 : ((sortLegs l').map legKey).Nodup :=
    ((((sortLegs_perm l').trans hperm).map legKey).nodup_iff).mpr hnd
  exact List.eq_of_perm_of_sorted h1
    (sorted_strict_of_nodup_keys _ (sortLegs_sorted l') hnd2)
    (sorted_strict_of_nodup_keys _ (sortLegs_sorted l) hnd1)

/-- C10 counterexample: permuting the legs of a journey changes the verdict
when two legs share the whole sort key — [legY, legX] is a permutation of
[legX, legY], the comparison of the journey with itself says identical, yet
against its leg-permuted copy it says not identical, because the stable sort
leaves key-equal legs in their original order. -/
theorem compare_journey_sets_leg_permutation_counterexample :
    journeyYX.legs.Perm journeyXY.legs ∧
    compare_journey_sets_identical [journeyXY] [journeyXY] = true ∧
    compare_journey_sets_identical [journeyXY] [journeyYX] = false :=
  ⟨List.Perm.swap legX legY [], by decide, by decide⟩

/-- The verdict depends only on the two tuple sets. -/
theorem compare_eq_of_tupleSet (o p o2 p2 : List JourneyDict)
    (h1 : tupleSet o = tupleSet o2) (h2 : tupleSet p = tupleSet p2) :
    compare_journey_sets_identical o p = compare_journey_sets_identical o2 p2 := by
  unfold compare_journey_sets_identical
  rw [h1, h2]

/-- C10 (amended): `identical` is true exactly when the two inputs induce
the same set of comparable tuples; the verdict is unchanged by duplicating
a journey or reordering either list; and permuting the legs inside a
journey leaves its normal form unchanged provided the legs' sort keys
(departure_time, route_id, from_stop) are pairwise distinct — with
key-equal legs the stable sort preserves the input order instead. -/
theorem compare_journey_sets_identical_spec (o p o2 p2 : List JourneyDict)
    (j : JourneyDict) (dep arr : String) (td nt : Nat)
    (ls ls2 : List LegDict) :
    (compare_journey_sets_identical o p = true ↔ tupleSet o = tupleSet p) ∧
    (j ∈ o → compare_journey_sets_identical (j :: o) p =
      compare_journey_sets_identical o p) ∧
    (j ∈ p → compare_journey_sets_identical o (j :: p) =
      compare_journey_sets_identical o p) ∧
    (o.Perm o2 → p.Perm p2 → compare_journey_sets_identical o p =
      compare_journey_sets_identical o2 p2) ∧
    (ls2.Perm ls → (ls.map legKey).Nodup →
      normalize_journey ⟨dep, arr, td, nt, ls2⟩ =
        normalize_journey ⟨dep, arr, td, nt, ls⟩) := by
  refine ⟨?_, ?_, ?_, ?_, ?_⟩
  · unfold compare_journey_sets_identical
    rw [Bool.and_eq_true, decide_eq_true_iff, decide_eq_true_iff,
      Finset.card_eq_zero, Finset.card_eq_zero,
      Finset.sdiff_eq_empty_iff_subset, Finset.sdiff_eq_empty_iff_subset]
    exact Finset.Subset.antisymm_iff.symm
  · intro hj
    refine compare_eq_of_tupleSet _ _ _ _ ?_ rfl
    unfold tupleSet
    rw [List.map_cons, List.toFinset_cons]
    exact Finset.insert_eq_self.2
      (by rw [List.mem_toFinset]; exact List.mem_map_of_mem _ hj)
  · intro hj
    refine compare_eq_of_tupleSet _ _ _ _ rfl ?_
    unfold tupleSet
    rw [List.map_cons, List.toFinset_cons]
    exact Finset.insert_eq_self.2
      (by rw [List.mem_toFinset]; exact List.mem_map_of_mem _ hj)
  · intro ho hp
    exact compare_eq_of_tupleSet _ _ _ _
      (List.toFinset_eq_of_perm _ _ (ho.map _))
      (List.toFinset_eq_of_perm _ _ (hp.map _))
  · intro hperm hnd
    unfold normalize_journey
    rw [sortLegs_eq_of_perm ls ls2 hperm hnd]

/-- Witness for `compare_journey_sets_identical_spec`: duplicating a journey
keeps the verdict, and a permutation of distinct-key legs normalizes to the
same journey. -/
theorem compare_journey_sets_identical_spec_witness :
    compare_journey_sets_identical [journeyXY, journeyXY] [journeyXY] =
      compare_journey_sets_identical [journeyXY] [journeyXY] ∧
    normalize_journey ⟨("08:00:00"), ("08:40:00"), 2400, 1, [legD, legC]⟩ =
      normalize_journey ⟨("08:00:00"), ("08:40:00"), 2400, 1, [legC, legD]⟩ :=
  ⟨(compare_journey_sets_identical_spec [journeyXY] [journeyXY] [] []
        journeyXY ("") ("") 0 0 [] []).2.1 (by decide),
    (compare_journey_sets_identical_spec [] [] [] [] journeyXY ("08:00:00")
        ("08:40:00") 2400 1 [legC, legD] [legD, legC]).2.2.2.2
      (List.Perm.swap legC legD []) (by decide)⟩
